import Mathlib

/-!
Verification of the helper layer in src/helperFunctions.ts of
fetch-wordpress-api: parameter building, slug extraction, redirect
resolution and image enrichment.

Modelling conventions (shallow embedding):
- JavaScript exceptions are modelled with Except JsError; a function whose
  body cannot throw returns a plain value.
- The asynchronous collaborators fetchPageBySlug and fetchData (imported
  from ./index, outside this file's source) are passed as explicit function
  parameters of type String -> Except JsError (List _): a resolved promise
  is .ok, a rejected one is .error.
- Promise.all over a map is modelled as a plain map: the results keep the
  input order, as Promise.all guarantees.
- Records are plain structures; an optional / possibly-undefined field is
  an Option.
-/

namespace FetchWP

/-- Errors a JavaScript computation in this layer can throw: a TypeError
from the URL constructor on a malformed URL, a TypeError from accessing a
property of undefined, or a rejection coming out of a fetch collaborator. -/
inductive JsError where
  | malformedURL : JsError
  | typeError : JsError
  | fetchFailed : String → JsError
deriving Repr, DecidableEq

/-- The title object of a post: rendered is the field the code reads and
writes; raw stands for any further subfield a fetched title object may
carry (absent = the property is not present on the object). -/
structure Title where
  rendered : String
  raw : Option String
deriving Repr, DecidableEq

/-- A post (or page) record as used by helperFunctions.ts. id and excerpt
stand for the fields the code never touches; image is optional because
items arrive without it and are enriched later. -/
structure Post where
  id : Nat
  slug : String
  link : String
  categories : List Nat
  image : Option String
  title : Title
  excerpt : String
  featured_media : Nat
deriving Repr, DecidableEq

instance : Inhabited Post := ⟨⟨0, "", "", [], none, ⟨"", none⟩, "", 0⟩⟩

/-- Media metadata: the nested path media_details.sizes.full.source_url read
by getImageLink; every intermediate object may be absent (undefined). -/
structure FullSize where
  source_url : String
deriving Repr, DecidableEq

structure Sizes where
  full : Option FullSize
deriving Repr, DecidableEq

structure MediaDetails where
  sizes : Option Sizes
deriving Repr, DecidableEq

structure Media where
  media_details : Option MediaDetails
deriving Repr, DecidableEq

/-- The PostParams record built by endpointParamsBuilder; a field is none
when the corresponding key is absent from the object. -/
structure PostParams where
  _fields : Option String
  per_page : Option Nat
deriving Repr, DecidableEq

/-! ## endpointParamsBuilder -/

/-- Spreading a list through a JavaScript Set keeps the first occurrence of
each element, in insertion order; dedupAux acc l walks l and appends each
element not seen before to acc. -/
def dedupAux : List String → List String → List String
  | acc, [] => acc
  | acc, s :: rest => dedupAux (if s ∈ acc then acc else acc ++ [s]) rest

/-- Models the expression [...new Set(fields)] of helperFunctions.ts line
17: the fields deduplicated, first occurrences kept, order preserved. -/
def uniqueFields (fields : List String) : List String := dedupAux [] fields

/-- helperFunctions.ts lines 10-25. fields = some fs models passing an
array (Array.isArray true); quantity = some q models passing a number
(typeof quantity === number). -/
def endpointParamsBuilder (fields : Option (List String)) (quantity : Option Nat) :
    PostParams :=
  let p0 : PostParams := ⟨none, none⟩
  let p1 : PostParams :=
    match fields with
    | some fs =>
      if fs.length > 0 then
        { p0 with _fields := some (String.intercalate "," (uniqueFields fs)) }
      else p0
    | none => p0
  match quantity with
  | some q => { p1 with per_page := some q }
  | none => p1

/-! ## slugExtractor -/

/-- The parsed URL record: the code only reads pathname. -/
structure URLRec where
  scheme : String
  host : String
  pathname : String
deriving Repr, DecidableEq

def isSchemeChar (c : Char) : Bool :=
  c.isAlphanum || c = '+' || c = '-' || c = '.'

/-- Splitting a character list at every occurrence of the separator
character, the semantics of the JavaScript string split method with a
one-character separator: the empty input gives one empty piece, and a
separator at either end contributes an empty piece there. -/
def splitChar (c : Char) : List Char → List (List Char)
  | [] => [[]]
  | x :: xs =>
    if x = c then [] :: splitChar c xs
    else
      match splitChar c xs with
      | [] => [[x]]
      | y :: ys => (x :: y) :: ys

/-- JavaScript split with a one-character separator, on Strings. -/
def stringSplitChar (c : Char) (s : String) : List String :=
  (splitChar c s.data).map List.asString

/-- Modelled from the spec: the platform WHATWG URL constructor invoked by
slugExtractor is not part of src/. Per the spec it parses an absolute URL:
a scheme (first character alphabetic, then scheme characters) up to a
colon, the authority marker, a non-empty host free of spaces up to the
first slash, and the path; the constructor throws — none here — on
anything else. The pathname always starts with a slash and is a bare
slash when no path follows the host. -/
def parseURL (s : String) : Option URLRec :=
  let cs := s.data
  let schemeCs := cs.takeWhile (fun c => c ≠ ':')
  let rest := cs.dropWhile (fun c => c ≠ ':')
  match rest with
  | ':' :: '/' :: '/' :: afterAuth =>
    if schemeCs.length > 0 && schemeCs.all isSchemeChar
        && (schemeCs.headD 'a').isAlpha then
      let hostCs := afterAuth.takeWhile (fun c => c ≠ '/')
      let pathCs := afterAuth.dropWhile (fun c => c ≠ '/')
      if hostCs.length > 0 && hostCs.all (fun c => c ≠ ' ') then
        some ⟨schemeCs.asString, hostCs.asString,
              if pathCs.isEmpty then "/" else pathCs.asString⟩
      else none
    else none
  | _ => none

/-- The segment of a pathname immediately after the leading slash: element
1 of pathname.split. Since a parsed pathname starts with a slash the split
has at least two elements and the default is never used. -/
def firstPathSegment (pathname : String) : String :=
  (stringSplitChar '/' pathname).getD 1 ""

/-- helperFunctions.ts lines 49-51: new URL(link).pathname.split(slash)[1].
The URL constructor throwing on a malformed link is the .error case. -/
def slugExtractor (link : String) : Except JsError String :=
  match parseURL link with
  | none => .error .malformedURL
  | some u => .ok (firstPathSegment u.pathname)

/-! ## detectRedirects -/

/-- The merge at helperFunctions.ts lines 67-72: spread of the first
fetched result, then categories, image and title overwritten; the new
title object carries only rendered, so any other subfield of the fetched
title (raw in this model) is absent from the result. -/
def mergePost (q post : Post) : Post :=
  { q with
    categories := post.categories
    image := post.image
    title := { rendered := post.title.rendered, raw := none } }

/-- The body of the arrow function mapped over posts at helperFunctions.ts
lines 60-83, including its try/catch: a thrown slug extraction error or a
rejected fetch is caught and the original post is returned. The value is
the array contributed to the flat() at line 86 (a bare return post
contributes the one-element array). -/
def processPost (fetch : String → Except JsError (List Post)) (post : Post) :
    List Post :=
  match slugExtractor post.link with
  | .error _ => [post]
  | .ok linkSlug =>
    if post.slug ≠ linkSlug then
      match fetch linkSlug with
      | .error _ => [post]
      | .ok [] => []
      | .ok (q :: qs) => mergePost q post :: qs
    else [post]

/-- helperFunctions.ts lines 58-87: map each post through its pipeline and
flatten. The function itself never throws: every per-item error is caught
inside processPost, so the return type is a plain list. -/
def detectRedirects (fetch : String → Except JsError (List Post))
    (posts : List Post) : List Post :=
  (posts.map (processPost fetch)).flatten

/-! ## getImageLink and addImagesToPost -/

/-- The template literal media slash featured_media at line 111. -/
def mediaEndpoint (featured_media : Nat) : String :=
  "media" ++ "/" ++ toString featured_media

/-- The access chain imageMetaInfo[0].media_details.sizes.full.source_url
at line 114: none models the TypeError thrown when the list is empty or an
intermediate property is undefined. -/
def extractFullSource (ms : List Media) : Option String :=
  match ms with
  | [] => none
  | m :: _ =>
    match m.media_details with
    | none => none
    | some md =>
      match md.sizes with
      | none => none
      | some sz =>
        match sz.full with
        | none => none
        | some f => some f.source_url

/-- helperFunctions.ts lines 108-121: fetch the media metadata and read the
full-size source url; the catch logs and rethrows, so every error reaches
the caller unchanged. -/
def getImageLink (fetchData : String → Except JsError (List Media))
    (featured_media : Nat) : Except JsError String :=
  match fetchData (mediaEndpoint featured_media) with
  | .error e => .error e
  | .ok ms =>
    match extractFullSource ms with
    | some url => .ok url
    | none => .error .typeError

/-- JavaScript truthiness of the image field in data[0].image at line 91:
an absent image and the empty string are falsy. -/
def truthyStr : Option String → Bool
  | none => false
  | some s => s ≠ ""

/-- The arrow function mapped over data at helperFunctions.ts lines 93-102,
with its try/catch: on success a fresh record with image set, on a thrown
getImageLink error the original post. -/
def enrichItem (fetchData : String → Except JsError (List Media))
    (post : Post) : Post :=
  match getImageLink fetchData post.featured_media with
  | .ok link => { post with image := some link }
  | .error _ => post

/-- helperFunctions.ts lines 89-106. The guard at line 91 dereferences
data[0] with no emptiness check: on an empty input reading image of
undefined throws a TypeError, modelled as the .error result; the throw is
outside any try, so it escapes addImagesToPost. -/
def addImagesToPost (fetchData : String → Except JsError (List Media))
    (data : List Post) : Except JsError (List Post) :=
  match data with
  | [] => .error .typeError
  | d0 :: _ =>
    if truthyStr d0.image || d0.featured_media == 0 then .ok data
    else .ok (data.map (enrichItem fetchData))

/-! ## Heap-level model for the mutation claim

A pure function cannot express in-place mutation, so the mutation claim is
settled on a refinement of the same code: a heap of post objects in which
references are indices and every object the JavaScript code constructs
with an object spread is a fresh allocation at the end of the heap, while
a field assignment on an existing object would overwrite its cell. The
functions below mirror detectRedirects and addImagesToPost cell for cell;
showing the final heap is the initial heap extended with fresh cells
proves the input objects are never written. -/

abbrev Store := List Post

/-- Heap-level counterpart of processPost: the fetched objects and the
merged spread object are allocated fresh; every branch that returns the
original post returns its unchanged reference. -/
def processPostS (fetch : String → Except JsError (List Post)) (σ : Store)
    (r : Nat) : List Nat × Store :=
  let post := σ.getD r default
  match slugExtractor post.link with
  | .error _ => ([r], σ)
  | .ok linkSlug =>
    if post.slug ≠ linkSlug then
      match fetch linkSlug with
      | .error _ => ([r], σ)
      | .ok [] => ([], σ)
      | .ok (q :: qs) =>
        ((List.range (qs.length + 1)).map (σ.length + ·),
          σ ++ (mergePost q post :: qs))
    else ([r], σ)

/-- Heap-level detectRedirects: the per-item reference lists concatenated,
as the flat() does, threading the heap through the items. -/
def detectRedirectsS (fetch : String → Except JsError (List Post)) :
    List Nat → Store → List Nat × Store
  | [], σ => ([], σ)
  | r :: rs, σ =>
    let p := processPostS fetch σ r
    let rest := detectRedirectsS fetch rs p.2
    (p.1 ++ rest.1, rest.2)

/-- Heap-level counterpart of the enrichment arrow function: the spread
with the image field is a fresh allocation; the catch branch returns the
unchanged reference. -/
def enrichItemS (fetchData : String → Except JsError (List Media)) (σ : Store)
    (r : Nat) : Nat × Store :=
  let post := σ.getD r default
  match getImageLink fetchData post.featured_media with
  | .ok link => (σ.length, σ ++ [{ post with image := some link }])
  | .error _ => (r, σ)

def enrichAllS (fetchData : String → Except JsError (List Media)) :
    List Nat → Store → List Nat × Store
  | [], σ => ([], σ)
  | r :: rs, σ =>
    let p := enrichItemS fetchData σ r
    let rest := enrichAllS fetchData rs p.2
    (p.1 :: rest.1, rest.2)

/-- Heap-level addImagesToPost, including the first-item guard and the
TypeError on an empty input. -/
def addImagesToPostS (fetchData : String → Except JsError (List Media))
    (refs : List Nat) (σ : Store) : Except JsError (List Nat) × Store :=
  match refs with
  | [] => (.error .typeError, σ)
  | r0 :: _ =>
    let d0 := σ.getD r0 default
    if truthyStr d0.image || d0.featured_media == 0 then (.ok refs, σ)
    else
      let p := enrichAllS fetchData refs σ
      (.ok p.1, p.2)

/-! ## Concrete inputs used by counterexamples and witnesses -/

def c1post : Post :=
  ⟨1, "old", "https://x/new/", [1], some "i.jpg", ⟨"T", none⟩, "", 0⟩

def c1fetch : String → Except JsError (List Post) := fun _ => .ok []

def c2orig : Post :=
  ⟨1, "old", "https://x/new/", [1], some "i.jpg", ⟨"T", none⟩, "e", 3⟩

def c2fetched : Post :=
  ⟨2, "new", "https://x/new/", [9], some "j.jpg", ⟨"New", some "RawNew"⟩, "e2", 4⟩

def c2fetch : String → Except JsError (List Post) :=
  fun s => if s = "new" then .ok [c2fetched] else .ok []

def c3post : Post :=
  ⟨1, "a", "https://h/a/", [2], none, ⟨"t", none⟩, "", 0⟩

def c3fetch : String → Except JsError (List Post) :=
  fun _ => .error (.fetchFailed "boom")

def c4bad : Post :=
  ⟨1, "b", "not a url", [], none, ⟨"t", none⟩, "", 0⟩

def c4good : Post :=
  ⟨2, "g", "https://h/g/", [], none, ⟨"t", none⟩, "", 0⟩

def c4fetch : String → Except JsError (List Post) :=
  fun _ => .error (.fetchFailed "net")

def c5post0 : Post :=
  ⟨1, "s0", "https://h/s0/", [], none, ⟨"t0", none⟩, "", 0⟩

def c5post1 : Post :=
  ⟨2, "s1", "https://h/s1/", [], none, ⟨"t1", none⟩, "", 7⟩

def c5fetch : String → Except JsError (List Media) :=
  fun _ => .ok [⟨some ⟨some ⟨some ⟨"https://img/u.jpg"⟩⟩⟩⟩]

def c9media : Media := ⟨some ⟨some ⟨some ⟨"https://img/full.jpg"⟩⟩⟩⟩

def c9fetch : String → Except JsError (List Media) := fun _ => .ok [c9media]

/-! ## Properties of the deduplication -/

theorem dedupAux_mem (l : List String) : ∀ acc a, a ∈ dedupAux acc l ↔ a ∈ acc ∨ a ∈ l := by
  induction l with
  | nil => intro acc a; simp [dedupAux]
  | cons s rest ih =>
    intro acc a
    by_cases hs : s ∈ acc
    · rw [dedupAux, if_pos hs, ih]
      simp only [List.mem_cons]
      constructor
      · rintro (ha | hr)
        · exact Or.inl ha
        · exact Or.inr (Or.inr hr)
      · rintro (ha | rfl | hr)
        · exact Or.inl ha
        · exact Or.inl hs
        · exact Or.inr hr
    · rw [dedupAux, if_neg hs, ih]
      simp only [List.mem_append, List.mem_singleton, List.mem_cons]
      tauto

theorem dedupAux_nodup (l : List String) :
    ∀ acc, acc.Nodup → (dedupAux acc l).Nodup := by
  induction l with
  | nil => intro acc h; simpa [dedupAux]
  | cons s rest ih =>
    intro acc h
    by_cases hs : s ∈ acc
    · rw [dedupAux, if_pos hs]; exact ih acc h
    · rw [dedupAux, if_neg hs]
      refine ih _ ?_
      rw [List.nodup_append]
      refine ⟨h, List.nodup_singleton s, fun a ha hb => hs ?_⟩
      rw [List.mem_singleton] at hb
      exact hb ▸ ha

theorem dedupAux_append_sublist (l : List String) :
    ∀ acc, ∃ t, dedupAux acc l = acc ++ t ∧ t.Sublist l := by
  induction l with
  | nil => intro acc; exact ⟨[], by simp [dedupAux]⟩
  | cons s rest ih =>
    intro acc
    by_cases hs : s ∈ acc
    · obtain ⟨t, ht, hsub⟩ := ih acc
      exact ⟨t, by rw [dedupAux, if_pos hs, ht], hsub.trans (List.sublist_cons_self s rest)⟩
    · obtain ⟨t, ht, hsub⟩ := ih (acc ++ [s])
      refine ⟨s :: t, ?_, hsub.cons₂ s⟩
      rw [dedupAux, if_neg hs, ht, List.append_assoc]
      rfl

theorem uniqueFields_nodup (l : List String) : (uniqueFields l).Nodup :=
  dedupAux_nodup l [] List.nodup_nil

theorem uniqueFields_sublist (l : List String) : (uniqueFields l).Sublist l := by
  obtain ⟨t, ht, hsub⟩ := dedupAux_append_sublist l []
  rw [uniqueFields, ht]
  simpa using hsub

theorem uniqueFields_mem (l : List String) (a : String) :
    a ∈ uniqueFields l ↔ a ∈ l := by
  rw [uniqueFields, dedupAux_mem]
  simp

/-! ## Claim theorems -/

/-- C8: endpointParamsBuilder stores, for a non-empty field list, the
fields deduplicated in first-occurrence order and comma-joined under the
fields key, and stores quantity under the page-size key exactly when it is
a number; absent or empty inputs are omitted without error, with the two
concrete examples of the spec. -/
theorem endpointParamsBuilder_spec :
    (∀ fs q, fs ≠ [] →
        endpointParamsBuilder (some fs) q =
          ⟨some (String.intercalate "," (uniqueFields fs)), q⟩)
    ∧ (∀ q, (endpointParamsBuilder none q)._fields = none
        ∧ (endpointParamsBuilder (some []) q)._fields = none)
    ∧ (∀ fields q, (endpointParamsBuilder fields q).per_page = q)
    ∧ (∀ fs, (uniqueFields fs).Nodup ∧ (uniqueFields fs).Sublist fs
        ∧ ∀ a, a ∈ uniqueFields fs ↔ a ∈ fs)
    ∧ endpointParamsBuilder (some ["a", "b", "a"]) (some 5) = ⟨some "a,b", some 5⟩
    ∧ endpointParamsBuilder (some []) none = ⟨none, none⟩ := by
  refine ⟨?_, ?_, ?_, ?_, rfl, rfl⟩
  · intro fs q h
    have hl : fs.length > 0 := List.length_pos.mpr h
    cases q <;> simp [endpointParamsBuilder, hl]
  · intro q
    cases q <;> exact ⟨rfl, rfl⟩
  · intro fields q
    cases fields with
    | none => cases q <;> rfl
    | some fs =>
      cases q with
      | some n => rfl
      | none =>
        simp only [endpointParamsBuilder]
        split <;> rfl
  · intro fs
    exact ⟨uniqueFields_nodup fs, uniqueFields_sublist fs, uniqueFields_mem fs⟩

/-- C8 witness: the general clause applied at a concrete non-empty list. -/
theorem endpointParamsBuilder_spec_witness :
    endpointParamsBuilder (some ["x", "y"]) (some 3) = ⟨some "x,y", some 3⟩ :=
  endpointParamsBuilder_spec.1 ["x", "y"] (some 3) (by decide)

/-- C7: slugExtractor returns the first path segment when the input parses
as an absolute URL, fails exactly when it does not parse, and behaves as
the spec's two examples require. -/
theorem slugExtractor_spec :
    (∀ link u, parseURL link = some u →
        slugExtractor link = .ok (firstPathSegment u.pathname))
    ∧ (∀ link, parseURL link = none → ∃ e, slugExtractor link = .error e)
    ∧ (∀ link e, slugExtractor link = .error e → parseURL link = none)
    ∧ slugExtractor "https://example.com/my-post/" = .ok "my-post"
    ∧ (∃ e, slugExtractor "not a url" = .error e) := by
  refine ⟨?_, ?_, ?_, rfl, ⟨.malformedURL, rfl⟩⟩
  · intro link u h
    simp [slugExtractor, h]
  · intro link h
    exact ⟨.malformedURL, by simp [slugExtractor, h]⟩
  · intro link e h
    cases hp : parseURL link with
    | none => rfl
    | some u => simp [slugExtractor, hp] at h

/-- C7 witness: the general clause applied at a concrete URL. -/
theorem slugExtractor_spec_witness :
    slugExtractor "https://host/a/b" = .ok "a" :=
  slugExtractor_spec.1 "https://host/a/b" ⟨"https", "host", "/a/b"⟩ rfl

/-- C10: addImagesToPost on the empty list does not return normally: the
unguarded access data[0].image throws a TypeError, modelled as the error
result, for every fetch collaborator. -/
theorem addImagesToPost_empty_throws
    (fetchData : String → Except JsError (List Media)) :
    addImagesToPost fetchData [] = .error .typeError := rfl

/-- C5: when the first item of a non-empty input has a truthy (non-empty)
image or featured media identifier zero, addImagesToPost returns the input
unchanged whatever the later items contain: the check reads only the first
item. -/
theorem addImagesToPost_shortcircuit_first
    (fetchData : String → Except JsError (List Media)) (d0 : Post)
    (rest : List Post)
    (h : truthyStr d0.image = true ∨ d0.featured_media = 0) :
    addImagesToPost fetchData (d0 :: rest) = .ok (d0 :: rest) := by
  rcases h with h | h <;> simp [addImagesToPost, h]

/-- C5 witness: the spec scenario — first item has featured media 0, the
second lacks an image and has featured media 7, yet the input comes back
unchanged even though the fetch would have succeeded for item two. -/
theorem addImagesToPost_shortcircuit_first_witness :
    addImagesToPost c5fetch [c5post0, c5post1] = .ok [c5post0, c5post1] :=
  addImagesToPost_shortcircuit_first c5fetch c5post0 [c5post1] (Or.inr rfl)

/-- C9: getImageLink returns the full-size source URL exactly when the
fetch succeeds and the nested field chain is present, and propagates an
error exactly when the fetch fails or the chain is absent; inside
addImagesToPost the per-item catch turns such an error into the unchanged
item, and the non-short-circuited batch is the per-item map. -/
theorem getImageLink_spec :
    (∀ fetchData mid ms url, fetchData (mediaEndpoint mid) = .ok ms →
        extractFullSource ms = some url → getImageLink fetchData mid = .ok url)
    ∧ (∀ fetchData mid ms, fetchData (mediaEndpoint mid) = .ok ms →
        extractFullSource ms = none →
        getImageLink fetchData mid = .error .typeError)
    ∧ (∀ fetchData mid e, fetchData (mediaEndpoint mid) = .error e →
        getImageLink fetchData mid = .error e)
    ∧ (∀ fetchData post, (∃ e, getImageLink fetchData post.featured_media = .error e) →
        enrichItem fetchData post = post)
    ∧ (∀ fetchData d0 rest, truthyStr d0.image = false → d0.featured_media ≠ 0 →
        addImagesToPost fetchData (d0 :: rest) =
          .ok ((d0 :: rest).map (enrichItem fetchData))) := by
  refine ⟨?_, ?_, ?_, ?_, ?_⟩
  · intro fetchData mid ms url h1 h2
    simp [getImageLink, h1, h2]
  · intro fetchData mid ms h1 h2
    simp [getImageLink, h1, h2]
  · intro fetchData mid e h
    simp [getImageLink, h]
  · intro fetchData post ⟨e, he⟩
    simp [enrichItem, he]
  · intro fetchData d0 rest h1 h2
    simp [addImagesToPost, h1, h2]

/-- C9 witness: the success clause applied at a concrete media record. -/
theorem getImageLink_spec_witness :
    getImageLink c9fetch 7 = .ok "https://img/full.jpg" :=
  getImageLink_spec.1 c9fetch 7 [c9media] "https://img/full.jpg" rfl rfl

/-! ## detectRedirects claims -/

theorem detectRedirects_cons (fetch : String → Except JsError (List Post))
    (p : Post) (l : List Post) :
    detectRedirects fetch (p :: l) = processPost fetch p ++ detectRedirects fetch l := by
  simp [detectRedirects]

theorem detectRedirects_append (fetch : String → Except JsError (List Post))
    (l1 l2 : List Post) :
    detectRedirects fetch (l1 ++ l2)
      = detectRedirects fetch l1 ++ detectRedirects fetch l2 := by
  simp [detectRedirects]

theorem processPost_extract_error (fetch : String → Except JsError (List Post))
    (post : Post) (e : JsError) (h : slugExtractor post.link = .error e) :
    processPost fetch post = [post] := by
  simp [processPost, h]

theorem processPost_fetch_error (fetch : String → Except JsError (List Post))
    (post : Post) (ls : String) (e : JsError)
    (h1 : slugExtractor post.link = .ok ls) (h2 : post.slug ≠ ls)
    (h3 : fetch ls = .error e) :
    processPost fetch post = [post] := by
  simp [processPost, h1, h2, h3]

theorem processPost_fetch_empty (fetch : String → Except JsError (List Post))
    (post : Post) (ls : String)
    (h1 : slugExtractor post.link = .ok ls) (h2 : post.slug ≠ ls)
    (h3 : fetch ls = .ok []) :
    processPost fetch post = [] := by
  simp [processPost, h1, h2, h3]

theorem processPost_fetch_hit (fetch : String → Except JsError (List Post))
    (post q : Post) (qs : List Post) (ls : String)
    (h1 : slugExtractor post.link = .ok ls) (h2 : post.slug ≠ ls)
    (h3 : fetch ls = .ok (q :: qs)) :
    processPost fetch post = mergePost q post :: qs := by
  simp [processPost, h1, h2, h3]

/-- C1 counterexample: for this item the stored slug differs from the link
slug, the by-slug fetch succeeds with zero results, and yet the output of
detectRedirects is empty — the original item is not kept, contradicting
the claim that it is returned unchanged. -/
theorem detectRedirects_zero_results_cex :
    slugExtractor c1post.link = .ok "new"
    ∧ c1post.slug ≠ "new"
    ∧ c1fetch "new" = .ok []
    ∧ detectRedirects c1fetch [c1post] = [] := by
  exact ⟨rfl, by decide, rfl, rfl⟩

/-- C1 amended: when the stored slug differs from the link slug and the
by-slug fetch succeeds with zero results, the item is dropped from the
output — the empty fetched array is returned and flattened away; only a
thrown error keeps the original item. -/
theorem detectRedirects_zero_results_drops
    (fetch : String → Except JsError (List Post)) (post : Post) (ls : String)
    (pre suf : List Post)
    (h1 : slugExtractor post.link = .ok ls) (h2 : post.slug ≠ ls)
    (h3 : fetch ls = .ok []) :
    detectRedirects fetch (pre ++ post :: suf) = detectRedirects fetch (pre ++ suf) := by
  have hp := processPost_fetch_empty fetch post ls h1 h2 h3
  rw [detectRedirects_append, detectRedirects_cons, hp, detectRedirects_append]
  rfl

/-- C1 witness: the amended statement at the counterexample input. -/
theorem detectRedirects_zero_results_drops_witness :
    detectRedirects c1fetch ([] ++ c1post :: []) = detectRedirects c1fetch ([] ++ []) :=
  detectRedirects_zero_results_drops c1fetch c1post "new" [] [] rfl (by decide) rfl

/-- C2 counterexample: the fetched result's title carries a subfield other
than rendered, and that subfield is not unchanged in the merged result —
the merge builds a fresh title object holding only rendered, so the claim
that every title subfield other than rendered survives is false. -/
theorem detectRedirects_title_raw_cex :
    c2fetched.title.raw = some "RawNew"
    ∧ ((detectRedirects c2fetch [c2orig]).headD default).title.raw ≠ some "RawNew" := by
  have hnone : ((detectRedirects c2fetch [c2orig]).headD default).title.raw = none := rfl
  exact ⟨rfl, by rw [hnone]; exact (Option.some_ne_none "RawNew").symm⟩

/-- C2 amended: when the by-slug fetch yields at least one result, the
first result's categories and image are overwritten with the original
item's values and its title is replaced by a fresh object whose only
subfield is rendered, taken from the original item — any other subfield of
the fetched title is discarded; every other top-level field of the fetched
result is unchanged. -/
theorem detectRedirects_merge_frame
    (fetch : String → Except JsError (List Post)) (post q : Post)
    (qs : List Post) (ls : String)
    (h1 : slugExtractor post.link = .ok ls) (h2 : post.slug ≠ ls)
    (h3 : fetch ls = .ok (q :: qs)) :
    detectRedirects fetch [post] = mergePost q post :: qs
    ∧ (mergePost q post).categories = post.categories
    ∧ (mergePost q post).image = post.image
    ∧ (mergePost q post).title = ⟨post.title.rendered, none⟩
    ∧ (mergePost q post).id = q.id
    ∧ (mergePost q post).slug = q.slug
    ∧ (mergePost q post).link = q.link
    ∧ (mergePost q post).excerpt = q.excerpt
    ∧ (mergePost q post).featured_media = q.featured_media := by
  refine ⟨?_, rfl, rfl, rfl, rfl, rfl, rfl, rfl, rfl⟩
  rw [detectRedirects_cons, processPost_fetch_hit fetch post q qs ls h1 h2 h3]
  simp [detectRedirects]

/-- C2 witness: the amended merge shape at the spec's scenario input. -/
theorem detectRedirects_merge_frame_witness :
    detectRedirects c2fetch [c2orig] = mergePost c2fetched c2orig :: [] :=
  (detectRedirects_merge_frame c2fetch c2orig c2fetched [] "new" rfl (by decide) rfl).1

/-- C3: an item whose stored slug equals its derived link slug is returned
as the identical object — on the heap model the pipeline returns the very
same reference with the heap untouched, and on the value model the input
value itself; consequently on a list where every item is already resolved
detectRedirects is the identity, hence idempotent. -/
theorem detectRedirects_resolved_identity
    (fetch : String → Except JsError (List Post)) :
    (∀ post, slugExtractor post.link = .ok post.slug →
        processPost fetch post = [post])
    ∧ (∀ (σ : Store) (r : Nat),
        slugExtractor (σ.getD r default).link = .ok (σ.getD r default).slug →
        processPostS fetch σ r = ([r], σ))
    ∧ (∀ posts, (∀ p ∈ posts, slugExtractor p.link = .ok p.slug) →
        detectRedirects fetch posts = posts
        ∧ detectRedirects fetch (detectRedirects fetch posts) = posts) := by
  have hpp : ∀ post, slugExtractor post.link = .ok post.slug →
      processPost fetch post = [post] := by
    intro post h
    simp [processPost, h]
  have hppS : ∀ (σ : Store) (r : Nat),
      slugExtractor (σ.getD r default).link = .ok (σ.getD r default).slug →
      processPostS fetch σ r = ([r], σ) := by
    intro σ r h
    simp only [processPostS]
    rw [h]
    simp
  have hid : ∀ posts, (∀ p ∈ posts, slugExtractor p.link = .ok p.slug) →
      detectRedirects fetch posts = posts := by
    intro posts hall
    induction posts with
    | nil => rfl
    | cons p ps ih =>
      rw [detectRedirects_cons, hpp p (hall p (List.mem_cons_self p ps)),
        ih (fun x hx => hall x (List.mem_cons_of_mem p hx))]
      rfl
  refine ⟨hpp, hppS, fun posts hall => ⟨hid posts hall, ?_⟩⟩
  rw [hid posts hall, hid posts hall]

/-- C3 witness: a resolved one-item list comes back unchanged. -/
theorem detectRedirects_resolved_identity_witness :
    detectRedirects c3fetch [c3post] = [c3post] :=
  ((detectRedirects_resolved_identity c3fetch).2.2 [c3post]
    (fun p hp => by rw [List.mem_singleton] at hp; rw [hp]; rfl)).1

/-- C4: an exception in one item's pipeline — slug extraction throwing or
the by-slug fetch rejecting — is caught: the item reappears unchanged in
the output while every other item is processed normally, and
detectRedirects as a whole is a total function into a plain list, so no
exception escapes. -/
theorem detectRedirects_catches_per_item
    (fetch : String → Except JsError (List Post)) (pre suf : List Post)
    (post : Post)
    (h : (∃ e, slugExtractor post.link = .error e)
        ∨ ∃ ls e, slugExtractor post.link = .ok ls ∧ post.slug ≠ ls
            ∧ fetch ls = .error e) :
    detectRedirects fetch (pre ++ post :: suf)
      = detectRedirects fetch pre ++ post :: detectRedirects fetch suf := by
  have hp : processPost fetch post = [post] := by
    rcases h with ⟨e, he⟩ | ⟨ls, e, h1, h2, h3⟩
    · exact processPost_extract_error fetch post e he
    · exact processPost_fetch_error fetch post ls e h1 h2 h3
  rw [detectRedirects_append, detectRedirects_cons, hp]
  rfl

/-- C4 witness: a malformed link in the middle of a batch leaves that item
unchanged and the batch intact. -/
theorem detectRedirects_catches_per_item_witness :
    detectRedirects c4fetch ([c4good] ++ c4bad :: [c4good])
      = detectRedirects c4fetch [c4good] ++ c4bad :: detectRedirects c4fetch [c4good] :=
  detectRedirects_catches_per_item c4fetch [c4good] [c4good] c4bad
    (Or.inl ⟨.malformedURL, rfl⟩)

theorem processPostS_extends (fetch : String → Except JsError (List Post))
    (σ : Store) (r : Nat) : ∃ ex, (processPostS fetch σ r).2 = σ ++ ex := by
  simp only [processPostS]
  split
  · exact ⟨[], by simp⟩
  · split
    · split
      · exact ⟨[], by simp⟩
      · exact ⟨[], by simp⟩
      · exact ⟨_, rfl⟩
    · exact ⟨[], by simp⟩

theorem detectRedirectsS_extends (fetch : String → Except JsError (List Post))
    (rs : List Nat) : ∀ σ, ∃ ex, (detectRedirectsS fetch rs σ).2 = σ ++ ex := by
  induction rs with
  | nil => exact fun σ => ⟨[], by simp [detectRedirectsS]⟩
  | cons r rs ih =>
    intro σ
    obtain ⟨e1, h1⟩ := processPostS_extends fetch σ r
    obtain ⟨e2, h2⟩ := ih (processPostS fetch σ r).2
    exact ⟨e1 ++ e2, by simp only [detectRedirectsS]; rw [h2, h1, List.append_assoc]⟩

theorem enrichItemS_extends (fetchData : String → Except JsError (List Media))
    (σ : Store) (r : Nat) : ∃ ex, (enrichItemS fetchData σ r).2 = σ ++ ex := by
  simp only [enrichItemS]
  split
  · exact ⟨_, rfl⟩
  · exact ⟨[], by simp⟩

theorem enrichAllS_extends (fetchData : String → Except JsError (List Media))
    (rs : List Nat) : ∀ σ, ∃ ex, (enrichAllS fetchData rs σ).2 = σ ++ ex := by
  induction rs with
  | nil => exact fun σ => ⟨[], by simp [enrichAllS]⟩
  | cons r rs ih =>
    intro σ
    obtain ⟨e1, h1⟩ := enrichItemS_extends fetchData σ r
    obtain ⟨e2, h2⟩ := ih (enrichItemS fetchData σ r).2
    exact ⟨e1 ++ e2, by simp only [enrichAllS]; rw [h2, h1, List.append_assoc]⟩

theorem addImagesToPostS_extends (fetchData : String → Except JsError (List Media))
    (refs : List Nat) (σ : Store) :
    ∃ ex, (addImagesToPostS fetchData refs σ).2 = σ ++ ex := by
  match refs with
  | [] => exact ⟨[], by simp [addImagesToPostS]⟩
  | r0 :: rs =>
    simp only [addImagesToPostS]
    split
    · exact ⟨[], by simp⟩
    · exact enrichAllS_extends fetchData (r0 :: rs) σ

theorem readRange (vals : List Post) (σ : Store) :
    (List.range vals.length).map (fun i => (σ ++ vals).getD (σ.length + i) default)
      = vals := by
  apply List.ext_getElem
  · simp
  · intro i h1 h2
    simp only [List.getElem_map, List.getElem_range]
    rw [List.getD_append_right, Nat.add_sub_cancel_left]
    · exact List.getD_eq_getElem vals default h2
    · exact Nat.le_add_right _ _

/-- Reading the references processPostS returns out of the heap it returns
gives exactly the value-level result of processPost on the stored post:
the heap model refines the pure model. -/
theorem processPostS_agrees (fetch : String → Except JsError (List Post))
    (σ : Store) (r : Nat) :
    ((processPostS fetch σ r).1).map
        (fun i => ((processPostS fetch σ r).2).getD i default)
      = processPost fetch (σ.getD r default) := by
  simp only [processPostS, processPost]
  cases h : slugExtractor (σ.getD r default).link with
  | error e => rfl
  | ok ls =>
    dsimp only
    by_cases hs : (σ.getD r default).slug ≠ ls
    · rw [if_pos hs, if_pos hs]
      cases hf : fetch ls with
      | error e => rfl
      | ok qs =>
        cases qs with
        | nil => rfl
        | cons q qs' =>
          simp only [List.map_map]
          exact readRange (mergePost q (σ.getD r default) :: qs') σ
    · rw [if_neg hs, if_neg hs]
      rfl

/-- Reading the reference enrichItemS returns out of the heap it returns
gives the value-level result of enrichItem on the stored post. -/
theorem enrichItemS_agrees (fetchData : String → Except JsError (List Media))
    (σ : Store) (r : Nat) :
    ((enrichItemS fetchData σ r).2).getD (enrichItemS fetchData σ r).1 default
      = enrichItem fetchData (σ.getD r default) := by
  simp only [enrichItemS, enrichItem]
  cases h : getImageLink fetchData (σ.getD r default).featured_media with
  | ok link =>
    rw [List.getD_append_right σ _ default σ.length (Nat.le_refl _)]
    simp
  | error e => rfl

/-- C6: on the heap-level model, both detectRedirects and addImagesToPost
only allocate: for every fetch collaborator, reference list and initial
heap, the final heap is the initial heap extended with fresh cells, so
every input object's fields are exactly as they were before the call —
neither function writes an existing object in place. -/
theorem no_input_mutation :
    (∀ (fetch : String → Except JsError (List Post)) (refs : List Nat) (σ : Store),
        ∃ ex, (detectRedirectsS fetch refs σ).2 = σ ++ ex)
    ∧ (∀ (fetchData : String → Except JsError (List Media)) (refs : List Nat) (σ : Store),
        ∃ ex, (addImagesToPostS fetchData refs σ).2 = σ ++ ex) :=
  ⟨fun fetch refs σ => detectRedirectsS_extends fetch refs σ,
   fun fetchData refs σ => addImagesToPostS_extends fetchData refs σ⟩

end FetchWP
